import Mathlib

/-!
# Verification of the research-gpt fetch/persist pipeline

Shallow embedding of the core of `jdegregorio/research-gpt`
(`src/research_gpt/scrape.py`, with the duplicated variants in
`src/research_gpt/WebScraper.py`, and `src/research_gpt/search.py` /
`src/search.py`), together with theorems settling the specification
claims about it.

Modelling conventions:
- Python exceptions are modelled with `Except`; Python `None` with
  `Option.none`.
- External network libraries (`requests`, `selenium`) are modelled as
  oracles indexed by the attempt number: `.error e` is a raised
  exception, `.ok v` a returned value (`v = none` models the callee
  returning Python `None`).
- `time.time()` is modelled by a logical clock that advances by one on
  every loop iteration of the scheduler (an admissible behaviour of a
  monotone real-time clock).
- Delays are modelled in `ℕ`.  The only value on which this differs from
  Python is `calculate_retry_delay` at `retries = 0` (Python computes the
  float `initial_retry_delay * 0.5` there, the `ℕ` model
  `initial_retry_delay`): every live use has `retries >= 1` — the
  internal retry loops increment `retries` before computing the delay,
  and the scheduler computes the `retries = 0` delay only when
  `last_attempt_timestamp is None`, in which case the `or` at
  `scrape.py` line 329 short-circuits before the delay is compared.
-/

/-- `calculate_retry_delay` from `src/research_gpt/scrape.py` lines 20-28:
`initial_retry_delay * (2 ** (retries - 1))`.  Python's default value for
`initial_retry_delay` is `5`; call sites that omit the argument are
embedded as passing `5` explicitly.  (At `retries = 0` — a value no live
comparison ever consumes, see the module docstring — `ℕ` subtraction makes
this `initial_retry_delay` rather than Python's float
`initial_retry_delay / 2`.) -/
def calculate_retry_delay (retries : ℕ) (initial_retry_delay : ℕ) : ℕ :=
  initial_retry_delay * 2 ^ (retries - 1)

/-- Boolean "is prefix" test on character lists (helper for the Python
substring operator `in`). -/
def isPrefixOfB : List Char → List Char → Bool
  | [], _ => true
  | _ :: _, [] => false
  | a :: as, b :: bs => a == b && isPrefixOfB as bs

/-- Python's substring operator `pat in s`, on character lists. -/
def containsSub (pat : List Char) : List Char → Bool
  | [] => isPrefixOfB pat []
  | c :: rest => isPrefixOfB pat (c :: rest) || containsSub pat rest

/-- The anti-bot / blocking detection keywords from
`check_html_incomplete_load` (`scrape.py` lines 48-50). -/
def incomplete_keywords : List String :=
  ["Please enable JS", "captcha", "data-cfasync", "g-recaptcha"]

/-- `check_html_incomplete_load` from `scrape.py` lines 48-50:
`any(keyword in html for keyword in keywords)`. -/
def check_html_incomplete_load (html : String) : Bool :=
  incomplete_keywords.any (fun k => containsSub k.toList html.toList)

/-- The attempt loop of `fetch_with_retry` (`scrape.py` lines 53-74):
`retries` is the current attempt index, the second argument the number of
attempts still allowed (`max_retries + 1 - retries`).  A non-raising call
returns its value immediately (even Python `None`); a raising call is
caught and the loop continues. -/
def fetchLoop (fetch_func : ℕ → Except String (Option String)) :
    ℕ → ℕ → Option String
  | _, 0 => none
  | retries, remaining + 1 =>
    match fetch_func retries with
    | .ok v => v
    | .error _ => fetchLoop fetch_func (retries + 1) remaining

/-- `fetch_with_retry` from `scrape.py` lines 53-74: attempts run for
`retries = 0, 1, ..., max_retries` (the loop condition is
`retries <= max_retries`), every exception is caught, and `None` is
returned when all attempts raised. -/
def fetch_with_retry (fetch_func : ℕ → Except String (Option String))
    (max_retries : ℕ) : Option String :=
  fetchLoop fetch_func 0 (max_retries + 1)

/-- Instrumentation: how many times `fetch_html` invoked each strategy
(`fetch_with_retry` on `fetch_html_requests` resp. `fetch_html_selenium`). -/
structure FetchCalls where
  requests_calls : ℕ
  selenium_calls : ℕ
deriving Repr, DecidableEq

/-- `fetch_html` from `scrape.py` lines 136-162: try the requests strategy;
if the result is `None` or flagged incomplete by
`check_html_incomplete_load`, replace it by one invocation of the selenium
strategy.  The second component records how often each strategy was
invoked. -/
def fetch_html (requests_func selenium_func : ℕ → Except String (Option String))
    (max_retries : ℕ) : Option String × FetchCalls :=
  let html_content := fetch_with_retry requests_func max_retries
  match html_content with
  | none => (fetch_with_retry selenium_func max_retries, ⟨1, 1⟩)
  | some h =>
    if check_html_incomplete_load h then
      (fetch_with_retry selenium_func max_retries, ⟨1, 1⟩)
    else
      (some h, ⟨1, 0⟩)

/-- The condition under which `fetch_html` falls back to selenium:
the primary result is `None` or flagged incomplete. -/
def primary_failed_or_incomplete (r : Option String) : Bool :=
  match r with
  | none => true
  | some h => check_html_incomplete_load h

theorem fetchLoop_all_raise (err : ℕ → String) :
    ∀ (remaining retries : ℕ),
      fetchLoop (fun n => .error (err n)) retries remaining = none := by
  intro remaining
  induction remaining with
  | zero => intro retries; rfl
  | succ k ih => intro retries; simpa [fetchLoop] using ih (retries + 1)

/-- Claim C5 (counterexample): the claim "fetch_html returns None iff both
strategies failed to produce content" is false at the concrete input where
the requests strategy returns the content `"captcha"` (content produced,
but flagged incomplete) and the selenium strategy raises: `fetch_html`
returns `None` although the primary strategy did produce content. -/
theorem fetch_html_none_iff_both_failed_counterexample :
    (fetch_html (fun _ => .ok (some "captcha"))
        (fun _ => .error "connection reset") 0).1 = none
      ∧ ¬(fetch_with_retry (fun _ => .ok (some "captcha")) 0 = none
            ∧ fetch_with_retry (fun _ => .error "connection reset") 0 = none) := by
  refine ⟨by decide, ?_⟩
  intro h
  exact Option.noConfusion h.1

/-- Claim C5 (amended): `fetch_html` never lets a strategy exception
propagate (an oracle raising on every attempt yields `none` rather than an
error), and it returns `None` if and only if the primary strategy failed
to produce *complete* content (returned `None` or content flagged by the
keyword scan) and the secondary strategy failed to produce content. -/
theorem fetch_html_total_and_none_iff
    (requests_func selenium_func : ℕ → Except String (Option String))
    (err : ℕ → String) (max_retries : ℕ) :
    fetch_with_retry (fun n => .error (err n)) max_retries = none
      ∧ ((fetch_html requests_func selenium_func max_retries).1 = none ↔
          (primary_failed_or_incomplete
              (fetch_with_retry requests_func max_retries) = true
            ∧ fetch_with_retry selenium_func max_retries = none)) := by
  constructor
  · exact fetchLoop_all_raise err (max_retries + 1) 0
  · unfold fetch_html
    cases hp : fetch_with_retry requests_func max_retries with
    | none => simp [primary_failed_or_incomplete]
    | some h =>
      by_cases hk : check_html_incomplete_load h
      · simp [hk, primary_failed_or_incomplete]
      · simp [hk, primary_failed_or_incomplete]

/-- Claim C6: whenever the primary (requests) strategy output contains a
detection keyword, `fetch_html` invokes the secondary (selenium) strategy
exactly once before returning. -/
theorem secondary_invoked_once_on_detection
    (requests_func selenium_func : ℕ → Except String (Option String))
    (max_retries : ℕ) (h : String)
    (hp : fetch_with_retry requests_func max_retries = some h)
    (hk : check_html_incomplete_load h = true) :
    (fetch_html requests_func selenium_func max_retries).2.selenium_calls = 1 := by
  unfold fetch_html
  rw [hp]
  simp [hk]

/-- Witness for C6 at a concrete input: primary output contains
`"captcha"` (inside `"g-recaptcha"`), so the selenium strategy is invoked
exactly once. -/
theorem secondary_invoked_once_on_detection_witness :
    (fetch_html (fun _ => .ok (some "g-recaptcha challenge"))
        (fun _ => .ok (some "rendered page")) 0).2.selenium_calls = 1 :=
  secondary_invoked_once_on_detection _ _ 0 "g-recaptcha challenge"
    (by decide) (by decide)

/-- Claim C9: completeness detection is applied only to the primary
strategy's output.  Whenever `fetch_html` falls back to the secondary
strategy, the secondary result is returned to the caller as-is — no
keyword scan is applied to it. -/
theorem fallback_result_not_scanned
    (requests_func selenium_func : ℕ → Except String (Option String))
    (max_retries : ℕ)
    (hp : primary_failed_or_incomplete
        (fetch_with_retry requests_func max_retries) = true) :
    (fetch_html requests_func selenium_func max_retries).1 =
      fetch_with_retry selenium_func max_retries := by
  unfold fetch_html
  cases hq : fetch_with_retry requests_func max_retries with
  | none => simp
  | some h =>
    rw [hq] at hp
    simp only [primary_failed_or_incomplete] at hp
    simp [hp]

/-- Witness for C9 at a concrete input: the primary strategy raises, the
secondary returns `"captcha"` — a string that itself contains a detection
keyword — and `fetch_html` returns it unchanged. -/
theorem fallback_result_not_scanned_witness :
    (fetch_html (fun _ => .error "timeout")
        (fun _ => .ok (some "captcha")) 0).1 = some "captcha"
      ∧ check_html_incomplete_load "captcha" = true :=
  ⟨fallback_result_not_scanned (fun _ => .error "timeout")
      (fun _ => .ok (some "captcha")) 0 (by decide), by decide⟩

/-! ## RetryScheduler: `fetch_and_save_html_from_urls` (`scrape.py` lines 300-355) -/

/-- The per-URL record `{"retries": ..., "last_attempt_timestamp": ...}`
of `url_metadata` (`scrape.py` line 313). -/
structure UrlMeta where
  retries : ℕ
  last_attempt_timestamp : Option ℕ
deriving Repr, DecidableEq

/-- The keyword arguments of `fetch_and_save_html_from_urls`.  As in the
source, `initial_retry_delay` is accepted but never reaches the backoff
computation (line 327 omits it, and line 330 passes the constant `0` to
`fetch_html`). -/
structure SchedCfg where
  max_retries : ℕ
  initial_retry_delay : ℕ
  request_timeout : ℕ
deriving Repr, DecidableEq

/-- The mutable state of the scheduling loop.  `saved` records the
`(url, raw_html)` arguments of the `save_html_to_disk` calls issued during
the run; `attempts` is ghost instrumentation counting the `fetch_html`
calls per URL (it indexes the fetch oracle); `clock` models `time.time()`
advancing by one per loop iteration. -/
structure SchedState where
  remaining : List String
  meta : List (String × UrlMeta)
  failed : List String
  saved : List (String × String)
  attempts : List (String × ℕ)
  clock : ℕ
deriving Repr, DecidableEq

/-- First-match association-list lookup with a default (models a Python
dict read). -/
def assocGet {β : Type} (l : List (String × β)) (k : String) (d : β) : β :=
  match l with
  | [] => d
  | (k', v) :: rest => if k' = k then v else assocGet rest k d

def getMeta (s : SchedState) (u : String) : UrlMeta :=
  assocGet s.meta u ⟨0, none⟩

def getAttempts (s : SchedState) (u : String) : ℕ :=
  assocGet s.attempts u 0

/-- The eligibility test of `scrape.py` line 329:
`last_attempt_timestamp is None or (current_time - last) >= retry_delay`,
where line 327 computes `retry_delay = calculate_retry_delay(retries)` —
with the `initial_retry_delay` argument omitted, so Python's default `5`
is used regardless of the configured value. -/
def eligibleB (m : UrlMeta) (t : ℕ) : Bool :=
  match m.last_attempt_timestamp with
  | none => true
  | some last => decide (calculate_retry_delay m.retries 5 ≤ t - last)

/-- The body of the `for url in list(remaining_urls)` loop
(`scrape.py` lines 323-345) for one URL.  The fetch oracle gives the
result of `fetch_html(url, max_retries=0, ...)` for each attempt of each
URL (`none` = all strategies failed). -/
def processUrl (cfg : SchedCfg) (oracle : String → ℕ → Option String)
    (s : SchedState) (u : String) : SchedState :=
  if eligibleB (getMeta s u) s.clock then
    match oracle u (getAttempts s u) with
    | some html =>
      { s with saved := s.saved ++ [(u, html)],
               remaining := s.remaining.erase u,
               attempts := (u, getAttempts s u + 1) :: s.attempts,
               clock := s.clock + 1 }
    | none =>
      if cfg.max_retries ≤ (getMeta s u).retries + 1 then
        { s with meta := (u, ⟨(getMeta s u).retries + 1, some s.clock⟩) :: s.meta,
                 attempts := (u, getAttempts s u + 1) :: s.attempts,
                 failed := s.failed ++ [u],
                 remaining := s.remaining.erase u,
                 clock := s.clock + 1 }
      else
        { s with meta := (u, ⟨(getMeta s u).retries + 1, some s.clock⟩) :: s.meta,
                 attempts := (u, getAttempts s u + 1) :: s.attempts,
                 clock := s.clock + 1 }
  else
    { s with clock := s.clock + 1 }

/-- One scheduling tick: iterate the loop body over a snapshot of
`remaining_urls` (Python's `list(remaining_urls)`). -/
def tick (cfg : SchedCfg) (oracle : String → ℕ → Option String)
    (s : SchedState) : SchedState :=
  s.remaining.foldl (processUrl cfg oracle) s

/-- The initial state built at `scrape.py` lines 311-315. -/
def initState (urls : List String) : SchedState :=
  { remaining := urls.dedup,
    meta := urls.map (fun u => (u, ⟨0, none⟩)),
    failed := [],
    saved := [],
    attempts := [],
    clock := 0 }

/-- The `while remaining_urls:` loop, with fuel bounding the number of
ticks; `some s` means the run completed (remaining set exhausted) in at
most `fuel` ticks with final state `s`. -/
def schedRun (cfg : SchedCfg) (oracle : String → ℕ → Option String) :
    ℕ → SchedState → Option SchedState
  | 0, s => if s.remaining.isEmpty then some s else none
  | fuel + 1, s =>
    if s.remaining.isEmpty then some s
    else schedRun cfg oracle fuel (tick cfg oracle s)

/-- Iterating a fixed number of ticks (used to observe intermediate
states of a run). -/
def tickIter (cfg : SchedCfg) (oracle : String → ℕ → Option String) :
    ℕ → SchedState → SchedState
  | 0, s => s
  | n + 1, s => tickIter cfg oracle n (tick cfg oracle s)

/-- The URLs persisted to the store during the run. -/
def savedUrls (s : SchedState) : List String :=
  s.saved.map Prod.fst

/-! ### Step characterization lemmas -/

theorem processUrl_not_eligible {cfg : SchedCfg} {oracle : String → ℕ → Option String}
    {s : SchedState} {u : String}
    (h : eligibleB (getMeta s u) s.clock = false) :
    processUrl cfg oracle s u = { s with clock := s.clock + 1 } := by
  unfold processUrl
  rw [h]
  rfl

theorem processUrl_success {cfg : SchedCfg} {oracle : String → ℕ → Option String}
    {s : SchedState} {u : String} {html : String}
    (h : eligibleB (getMeta s u) s.clock = true)
    (ho : oracle u (getAttempts s u) = some html) :
    processUrl cfg oracle s u =
      { s with saved := s.saved ++ [(u, html)],
               remaining := s.remaining.erase u,
               attempts := (u, getAttempts s u + 1) :: s.attempts,
               clock := s.clock + 1 } := by
  unfold processUrl
  rw [h, ho]
  rfl

theorem processUrl_fail_exhausted {cfg : SchedCfg} {oracle : String → ℕ → Option String}
    {s : SchedState} {u : String}
    (h : eligibleB (getMeta s u) s.clock = true)
    (ho : oracle u (getAttempts s u) = none)
    (hm : cfg.max_retries ≤ (getMeta s u).retries + 1) :
    processUrl cfg oracle s u =
      { s with meta := (u, ⟨(getMeta s u).retries + 1, some s.clock⟩) :: s.meta,
               attempts := (u, getAttempts s u + 1) :: s.attempts,
               failed := s.failed ++ [u],
               remaining := s.remaining.erase u,
               clock := s.clock + 1 } := by
  unfold processUrl
  rw [h, ho]
  simp [hm]

theorem processUrl_fail_pending {cfg : SchedCfg} {oracle : String → ℕ → Option String}
    {s : SchedState} {u : String}
    (h : eligibleB (getMeta s u) s.clock = true)
    (ho : oracle u (getAttempts s u) = none)
    (hm : ¬ cfg.max_retries ≤ (getMeta s u).retries + 1) :
    processUrl cfg oracle s u =
      { s with meta := (u, ⟨(getMeta s u).retries + 1, some s.clock⟩) :: s.meta,
               attempts := (u, getAttempts s u + 1) :: s.attempts,
               clock := s.clock + 1 } := by
  unfold processUrl
  rw [h, ho]
  simp [hm]

theorem processUrl_remaining_sub (cfg : SchedCfg) (oracle : String → ℕ → Option String)
    (s : SchedState) (u : String) :
    (processUrl cfg oracle s u).remaining = s.remaining ∨
      (processUrl cfg oracle s u).remaining = s.remaining.erase u := by
  by_cases h : eligibleB (getMeta s u) s.clock = true
  · cases ho : oracle u (getAttempts s u) with
    | none =>
      by_cases hm : cfg.max_retries ≤ (getMeta s u).retries + 1
      · rw [processUrl_fail_exhausted h ho hm]; exact Or.inr rfl
      · rw [processUrl_fail_pending h ho hm]; exact Or.inl rfl
    | some html => rw [processUrl_success h ho]; exact Or.inr rfl
  · rw [processUrl_not_eligible (Bool.not_eq_true _ ▸ h)]
    exact Or.inl rfl

theorem processUrl_remaining_nodup {cfg : SchedCfg} {oracle : String → ℕ → Option String}
    {s : SchedState} {u : String} (hnd : s.remaining.Nodup) :
    (processUrl cfg oracle s u).remaining.Nodup := by
  rcases processUrl_remaining_sub cfg oracle s u with h | h <;> rw [h]
  · exact hnd
  · exact hnd.erase u

theorem mem_remaining_processUrl_of_ne {cfg : SchedCfg}
    {oracle : String → ℕ → Option String} {s : SchedState} {u v : String}
    (hvu : v ≠ u) (hv : v ∈ s.remaining) :
    v ∈ (processUrl cfg oracle s u).remaining := by
  rcases processUrl_remaining_sub cfg oracle s u with h | h <;> rw [h]
  · exact hv
  · exact (List.mem_erase_of_ne hvu).mpr hv

/-! ### Generic invariant machinery for the scheduling loop -/

theorem foldl_processUrl_inv {P : SchedState → Prop} (cfg : SchedCfg)
    (oracle : String → ℕ → Option String)
    (hstep : ∀ s u, u ∈ s.remaining → s.remaining.Nodup → P s →
        P (processUrl cfg oracle s u)) :
    ∀ (l : List String) (s : SchedState), l.Nodup →
      (∀ x ∈ l, x ∈ s.remaining) → s.remaining.Nodup → P s →
      P (List.foldl (processUrl cfg oracle) s l) := by
  intro l
  induction l with
  | nil => intro s _ _ _ hP; exact hP
  | cons u l' ih =>
    intro s hnd hsub hrnd hP
    have hu : u ∈ s.remaining := hsub u (List.mem_cons_self u l')
    have hP' : P (processUrl cfg oracle s u) := hstep s u hu hrnd hP
    have hnotin : u ∉ l' := (List.nodup_cons.mp hnd).1
    refine ih (processUrl cfg oracle s u) (List.nodup_cons.mp hnd).2 ?_
      (processUrl_remaining_nodup hrnd) hP'
    intro x hx
    exact mem_remaining_processUrl_of_ne
      (fun hxu => hnotin (hxu ▸ hx)) (hsub x (List.mem_cons_of_mem u hx))

theorem tick_inv {P : SchedState → Prop} {cfg : SchedCfg}
    {oracle : String → ℕ → Option String}
    (hstep : ∀ s u, u ∈ s.remaining → s.remaining.Nodup → P s →
        P (processUrl cfg oracle s u))
    (s : SchedState) (hnd : s.remaining.Nodup) (hP : P s) :
    P (tick cfg oracle s) :=
  foldl_processUrl_inv cfg oracle hstep s.remaining s hnd (fun _ hx => hx) hnd hP

theorem tick_remaining_nodup {cfg : SchedCfg} {oracle : String → ℕ → Option String}
    {s : SchedState} (hnd : s.remaining.Nodup) :
    (tick cfg oracle s).remaining.Nodup :=
  tick_inv (P := fun s => s.remaining.Nodup)
    (fun _ _ _ h _ => processUrl_remaining_nodup h) s hnd hnd

theorem schedRun_inv {P : SchedState → Prop} {cfg : SchedCfg}
    {oracle : String → ℕ → Option String}
    (hstep : ∀ s u, u ∈ s.remaining → s.remaining.Nodup → P s →
        P (processUrl cfg oracle s u)) :
    ∀ (fuel : ℕ) (s s' : SchedState), s.remaining.Nodup → P s →
      schedRun cfg oracle fuel s = some s' → P s' ∧ s'.remaining = [] := by
  intro fuel
  induction fuel with
  | zero =>
    intro s s' hnd hP h
    unfold schedRun at h
    by_cases he : s.remaining.isEmpty
    · rw [if_pos he] at h
      cases h
      exact ⟨hP, List.isEmpty_iff.mp he⟩
    · rw [if_neg he] at h
      cases h
  | succ n ih =>
    intro s s' hnd hP h
    unfold schedRun at h
    by_cases he : s.remaining.isEmpty
    · rw [if_pos he] at h
      cases h
      exact ⟨hP, List.isEmpty_iff.mp he⟩
    · rw [if_neg he] at h
      exact ih (tick cfg oracle s) s' (tick_remaining_nodup hnd)
        (tick_inv hstep s hnd hP) h

/-! ### Claim C1: partition of submitted URLs -/

/-- Run invariant for C1: the submitted URLs are partitioned into
pending, permanently failed and stored-with-content. -/
def SchedInv (urls : List String) (s : SchedState) : Prop :=
  (∀ u, u ∈ urls ↔ (u ∈ s.remaining ∨ u ∈ s.failed ∨ u ∈ savedUrls s))
  ∧ (∀ u, u ∈ s.remaining → u ∉ s.failed ∧ u ∉ savedUrls s)
  ∧ (∀ u, u ∈ s.failed → u ∉ savedUrls s)

theorem processUrl_schedInv {urls : List String} {cfg : SchedCfg}
    {oracle : String → ℕ → Option String} {s : SchedState} {u : String}
    (hu : u ∈ s.remaining) (hnd : s.remaining.Nodup)
    (hI : SchedInv urls s) : SchedInv urls (processUrl cfg oracle s u) := by
  obtain ⟨hcov, hrem, hfs⟩ := hI
  by_cases h : eligibleB (getMeta s u) s.clock = true
  · cases ho : oracle u (getAttempts s u) with
    | some html =>
      rw [processUrl_success h ho]
      refine ⟨?_, ?_, ?_⟩
      · intro v
        by_cases hvu : v = u
        · subst hvu
          simp only [savedUrls, List.map_append]
          constructor
          · intro _
            exact Or.inr (Or.inr (by simp))
          · intro _
            exact (hcov v).mpr (Or.inl hu)
        · simp only [savedUrls, List.map_append, List.mem_append,
            hnd.mem_erase_iff, List.map_cons, List.map_nil,
            List.mem_singleton, hvu, and_true, or_false]
          rw [hcov v]
          simp [savedUrls, hvu]
      · intro v hv
        simp only [hnd.mem_erase_iff] at hv
        obtain ⟨hvu, hvrem⟩ := hv
        obtain ⟨hf, hs⟩ := hrem v hvrem
        refine ⟨hf, ?_⟩
        simp only [savedUrls, List.map_append, List.mem_append]
        rintro (hmem | hmem)
        · exact hs hmem
        · simp at hmem
          exact hvu hmem
      · intro v hv
        obtain hs := hfs v hv
        have hvu : v ≠ u := fun hvu => (hrem u hu).1 (hvu ▸ hv)
        simp only [savedUrls, List.map_append, List.mem_append]
        rintro (hmem | hmem)
        · exact hs hmem
        · simp at hmem
          exact hvu hmem
    | none =>
      by_cases hm : cfg.max_retries ≤ (getMeta s u).retries + 1
      · rw [processUrl_fail_exhausted h ho hm]
        refine ⟨?_, ?_, ?_⟩
        · intro v
          by_cases hvu : v = u
          · subst hvu
            constructor
            · intro _
              exact Or.inr (Or.inl (by simp))
            · intro _
              exact (hcov v).mpr (Or.inl hu)
          · simp only [hnd.mem_erase_iff, List.mem_append,
              List.mem_singleton, hvu, and_true, or_false]
            rw [hcov v]
            simp [savedUrls, hvu]
        · intro v hv
          simp only [hnd.mem_erase_iff] at hv
          obtain ⟨hvu, hvrem⟩ := hv
          obtain ⟨hf, hs⟩ := hrem v hvrem
          constructor
          · simp only [List.mem_append, List.mem_singleton]
            rintro (hmem | hmem)
            · exact hf hmem
            · exact hvu hmem
          · exact hs
        · intro v hv
          simp only [List.mem_append, List.mem_singleton] at hv
          rcases hv with hv | hv
          · exact hfs v hv
          · subst hv
            exact (hrem v hu).2
      · rw [processUrl_fail_pending h ho hm]
        exact ⟨hcov, hrem, hfs⟩
  · rw [processUrl_not_eligible (Bool.not_eq_true _ ▸ h)]
    exact ⟨hcov, hrem, hfs⟩

/-- Claim C1: for every finite set of URLs passed to
`fetch_and_save_html_from_urls`, when the run completes each submitted URL
is in exactly one of the two outcomes: the returned failed list and the
set of URLs persisted to the store during the run are disjoint and their
union covers all submitted URLs. -/
theorem retry_scheduler_partition (cfg : SchedCfg)
    (oracle : String → ℕ → Option String) (urls : List String) (fuel : ℕ)
    (s : SchedState)
    (h : schedRun cfg oracle fuel (initState urls) = some s)
    (u : String) (hu : u ∈ urls) :
    (u ∈ s.failed ∨ u ∈ savedUrls s) ∧ ¬(u ∈ s.failed ∧ u ∈ savedUrls s) := by
  have hinit : SchedInv urls (initState urls) := by
    refine ⟨?_, ?_, ?_⟩ <;> simp [initState, savedUrls]
  have hnd : (initState urls).remaining.Nodup := by
    simp only [initState]
    exact urls.nodup_dedup
  obtain ⟨⟨hcov, hrem, hfs⟩, hempty⟩ :=
    schedRun_inv (P := SchedInv urls)
      (fun s u hu hnd hI => processUrl_schedInv hu hnd hI)
      fuel _ s hnd hinit h
  have hmem := (hcov u).mp hu
  rw [hempty] at hmem
  simp only [List.not_mem_nil, false_or] at hmem
  exact ⟨hmem, fun hc => hfs u hc.1 hc.2⟩

/-- Witness for C1 at a concrete run: URL `"a"` succeeds immediately, URL
`"b"` exhausts its three retries; the run completes and both URLs land in
exactly one outcome. -/
theorem retry_scheduler_partition_witness :
    ("b" ∈ (⟨[], [("b", ⟨3, some 16⟩), ("b", ⟨2, some 6⟩), ("b", ⟨1, some 1⟩),
          ("a", ⟨0, none⟩), ("b", ⟨0, none⟩)], ["b"], [("a", "<html>")],
          [("b", 3), ("b", 2), ("b", 1), ("a", 1)], 17⟩ : SchedState).failed
        ∨ "b" ∈ savedUrls ⟨[], [("b", ⟨3, some 16⟩), ("b", ⟨2, some 6⟩),
          ("b", ⟨1, some 1⟩), ("a", ⟨0, none⟩), ("b", ⟨0, none⟩)], ["b"],
          [("a", "<html>")], [("b", 3), ("b", 2), ("b", 1), ("a", 1)], 17⟩)
      ∧ ¬("b" ∈ (⟨[], [("b", ⟨3, some 16⟩), ("b", ⟨2, some 6⟩), ("b", ⟨1, some 1⟩),
          ("a", ⟨0, none⟩), ("b", ⟨0, none⟩)], ["b"], [("a", "<html>")],
          [("b", 3), ("b", 2), ("b", 1), ("a", 1)], 17⟩ : SchedState).failed
        ∧ "b" ∈ savedUrls ⟨[], [("b", ⟨3, some 16⟩), ("b", ⟨2, some 6⟩),
          ("b", ⟨1, some 1⟩), ("a", ⟨0, none⟩), ("b", ⟨0, none⟩)], ["b"],
          [("a", "<html>")], [("b", 3), ("b", 2), ("b", 1), ("a", 1)], 17⟩) :=
  retry_scheduler_partition ⟨3, 3, 15⟩
    (fun u _ => if u = "a" then some "<html>" else none) ["a", "b"] 40 _
    (by decide) "b" (by decide)

/-! ### Per-URL frame lemmas -/

theorem assocGet_cons_self {β : Type} {k : String} {x : β}
    {l : List (String × β)} {d : β} :
    assocGet ((k, x) :: l) k d = x := by
  simp [assocGet]

theorem assocGet_cons_ne {β : Type} {k k' : String} {x : β}
    {l : List (String × β)} {d : β} (h : k ≠ k') :
    assocGet ((k, x) :: l) k' d = assocGet l k' d := by
  simp [assocGet, h]

theorem assocGet_map_const {β : Type} (l : List String) (k : String) (c : β) :
    assocGet (l.map (fun u => (u, c))) k c = c := by
  induction l with
  | nil => rfl
  | cons a l ih =>
    simp only [List.map_cons, assocGet]
    split
    · rfl
    · exact ih

/-- Processing URL `v` leaves every observation about a different URL `u`
unchanged. -/
theorem processUrl_frame (cfg : SchedCfg) (oracle : String → ℕ → Option String)
    (s : SchedState) {v u : String} (hvu : v ≠ u) :
    getMeta (processUrl cfg oracle s v) u = getMeta s u
      ∧ getAttempts (processUrl cfg oracle s v) u = getAttempts s u
      ∧ (u ∈ (processUrl cfg oracle s v).remaining ↔ u ∈ s.remaining)
      ∧ (u ∈ (processUrl cfg oracle s v).failed ↔ u ∈ s.failed)
      ∧ (u ∈ savedUrls (processUrl cfg oracle s v) ↔ u ∈ savedUrls s) := by
  have hne : u ≠ v := Ne.symm hvu
  by_cases he : eligibleB (getMeta s v) s.clock = true
  · cases ho : oracle v (getAttempts s v) with
    | some html =>
      rw [processUrl_success he ho]
      refine ⟨rfl, assocGet_cons_ne hvu, List.mem_erase_of_ne hne, Iff.rfl, ?_⟩
      simp [savedUrls, hne]
    | none =>
      by_cases hm : cfg.max_retries ≤ (getMeta s v).retries + 1
      · rw [processUrl_fail_exhausted he ho hm]
        refine ⟨assocGet_cons_ne hvu, assocGet_cons_ne hvu,
          List.mem_erase_of_ne hne, ?_, Iff.rfl⟩
        simp [hne]
      · rw [processUrl_fail_pending he ho hm]
        exact ⟨assocGet_cons_ne hvu, assocGet_cons_ne hvu, Iff.rfl, Iff.rfl, Iff.rfl⟩
  · rw [processUrl_not_eligible (Bool.not_eq_true _ ▸ he)]
    exact ⟨rfl, rfl, Iff.rfl, Iff.rfl, Iff.rfl⟩

/-! ### Claim C3: terminal transitions at the retry cap -/

/-- Run invariant for the all-failures scenario of C3: while pending, the
URL has as many attempts as recorded failures and is below the cap; once
the cap is reached it is failed with exactly `M` attempts. -/
def FailInv (M : ℕ) (u : String) (s : SchedState) : Prop :=
  (u ∈ s.remaining ∧ getAttempts s u = (getMeta s u).retries
      ∧ (getMeta s u).retries < M ∧ u ∉ s.failed)
    ∨ (u ∉ s.remaining ∧ u ∈ s.failed ∧ getAttempts s u = M
      ∧ (getMeta s u).retries = M)

theorem processUrl_failInv {cfg : SchedCfg} {oracle : String → ℕ → Option String}
    {u : String}
    (horacle : ∀ n, n < cfg.max_retries → oracle u n = none) :
    ∀ s v, v ∈ s.remaining → s.remaining.Nodup →
      FailInv cfg.max_retries u s →
      FailInv cfg.max_retries u (processUrl cfg oracle s v) := by
  intro s v hv hnd hI
  by_cases hvu : v = u
  · subst hvu
    rcases hI with ⟨hrem, hatt, hlt, hnf⟩ | ⟨hnrem, _⟩
    · by_cases he : eligibleB (getMeta s v) s.clock = true
      · have ho : oracle v (getAttempts s v) = none := by
          rw [hatt]; exact horacle _ hlt
        by_cases hm : cfg.max_retries ≤ (getMeta s v).retries + 1
        · rw [processUrl_fail_exhausted he ho hm]
          refine Or.inr ⟨?_, by simp, ?_, ?_⟩
          · intro hmem
            exact (hnd.mem_erase_iff.mp hmem).1 rfl
          · show assocGet ((v, getAttempts s v + 1) :: s.attempts) v 0
              = cfg.max_retries
            rw [assocGet_cons_self, hatt]
            omega
          · show (assocGet ((v, (⟨(getMeta s v).retries + 1, some s.clock⟩ : UrlMeta))
                :: s.meta) v ⟨0, none⟩).retries = cfg.max_retries
            rw [assocGet_cons_self]
            show (getMeta s v).retries + 1 = cfg.max_retries
            omega
        · rw [processUrl_fail_pending he ho hm]
          refine Or.inl ⟨hrem, ?_, ?_, hnf⟩
          · show assocGet ((v, getAttempts s v + 1) :: s.attempts) v 0
              = (assocGet ((v, (⟨(getMeta s v).retries + 1, some s.clock⟩ : UrlMeta))
                :: s.meta) v ⟨0, none⟩).retries
            rw [assocGet_cons_self, assocGet_cons_self, hatt]
          · show (assocGet ((v, (⟨(getMeta s v).retries + 1, some s.clock⟩ : UrlMeta))
                :: s.meta) v ⟨0, none⟩).retries < cfg.max_retries
            rw [assocGet_cons_self]
            show (getMeta s v).retries + 1 < cfg.max_retries
            omega
      · rw [processUrl_not_eligible (Bool.not_eq_true _ ▸ he)]
        exact Or.inl ⟨hrem, hatt, hlt, hnf⟩
    · exact absurd hv hnrem
  · obtain ⟨hmeta, hattf, hremf, hfailf, _⟩ :=
      processUrl_frame cfg oracle s hvu
    rcases hI with ⟨hrem, hatt, hlt, hnf⟩ | ⟨hnrem, hf, hatt, hret⟩
    · exact Or.inl ⟨hremf.mpr hrem, by rw [hattf, hmeta]; exact hatt,
        by rw [hmeta]; exact hlt, fun hc => hnf (hfailf.mp hc)⟩
    · exact Or.inr ⟨fun hc => hnrem (hremf.mp hc), hfailf.mpr hf,
        by rw [hattf]; exact hatt, by rw [hmeta]; exact hret⟩

/-- Run invariant for the fail-then-succeed scenario of C3. -/
def SucInv (M : ℕ) (u html : String) (s : SchedState) : Prop :=
  (u ∈ s.remaining ∧ getAttempts s u = (getMeta s u).retries
      ∧ (getMeta s u).retries ≤ M - 1 ∧ u ∉ s.failed)
    ∨ (u ∉ s.remaining ∧ (u, html) ∈ s.saved ∧ u ∉ s.failed
      ∧ getAttempts s u = M ∧ (getMeta s u).retries = M - 1)

theorem processUrl_sucInv {cfg : SchedCfg} {oracle : String → ℕ → Option String}
    {u html : String} (hM : 1 ≤ cfg.max_retries)
    (horacle : ∀ n, n < cfg.max_retries - 1 → oracle u n = none)
    (hsucc : oracle u (cfg.max_retries - 1) = some html) :
    ∀ s v, v ∈ s.remaining → s.remaining.Nodup →
      SucInv cfg.max_retries u html s →
      SucInv cfg.max_retries u html (processUrl cfg oracle s v) := by
  intro s v hv hnd hI
  by_cases hvu : v = u
  · subst hvu
    rcases hI with ⟨hrem, hatt, hle, hnf⟩ | ⟨hnrem, _⟩
    · by_cases he : eligibleB (getMeta s v) s.clock = true
      · rcases Nat.lt_or_eq_of_le hle with hlt | heq
        · have ho : oracle v (getAttempts s v) = none := by
            rw [hatt]; exact horacle _ hlt
          have hm : ¬ cfg.max_retries ≤ (getMeta s v).retries + 1 := by omega
          rw [processUrl_fail_pending he ho hm]
          refine Or.inl ⟨hrem, ?_, ?_, hnf⟩
          · show assocGet ((v, getAttempts s v + 1) :: s.attempts) v 0
              = (assocGet ((v, (⟨(getMeta s v).retries + 1, some s.clock⟩ : UrlMeta))
                :: s.meta) v ⟨0, none⟩).retries
            rw [assocGet_cons_self, assocGet_cons_self, hatt]
          · show (assocGet ((v, (⟨(getMeta s v).retries + 1, some s.clock⟩ : UrlMeta))
                :: s.meta) v ⟨0, none⟩).retries ≤ cfg.max_retries - 1
            rw [assocGet_cons_self]
            show (getMeta s v).retries + 1 ≤ cfg.max_retries - 1
            omega
        · have ho : oracle v (getAttempts s v) = some html := by
            rw [hatt, heq]; exact hsucc
          rw [processUrl_success he ho]
          refine Or.inr ⟨?_, by simp, hnf, ?_, ?_⟩
          · intro hmem
            exact (hnd.mem_erase_iff.mp hmem).1 rfl
          · show assocGet ((v, getAttempts s v + 1) :: s.attempts) v 0
              = cfg.max_retries
            rw [assocGet_cons_self, hatt, heq]
            omega
          · show (assocGet s.meta v ⟨0, none⟩).retries = cfg.max_retries - 1
            exact heq
      · rw [processUrl_not_eligible (Bool.not_eq_true _ ▸ he)]
        exact Or.inl ⟨hrem, hatt, hle, hnf⟩
    · exact absurd hv hnrem
  · obtain ⟨hmeta, hattf, hremf, hfailf, _⟩ :=
      processUrl_frame cfg oracle s hvu
    have hsavf : ∀ x, ((u, x) ∈ (processUrl cfg oracle s v).saved ↔ (u, x) ∈ s.saved) := by
      intro x
      by_cases he : eligibleB (getMeta s v) s.clock = true
      · cases ho : oracle v (getAttempts s v) with
        | some html2 =>
          rw [processUrl_success he ho]
          simp only [List.mem_append, List.mem_singleton]
          constructor
          · rintro (hc | hc)
            · exact hc
            · cases hc
              exact absurd rfl hvu
          · exact fun hc => Or.inl hc
        | none =>
          by_cases hm : cfg.max_retries ≤ (getMeta s v).retries + 1
          · rw [processUrl_fail_exhausted he ho hm]
          · rw [processUrl_fail_pending he ho hm]
      · rw [processUrl_not_eligible (Bool.not_eq_true _ ▸ he)]
    rcases hI with ⟨hrem, hatt, hle, hnf⟩ | ⟨hnrem, hsv, hnf, hatt, hret⟩
    · exact Or.inl ⟨hremf.mpr hrem, by rw [hattf, hmeta]; exact hatt,
        by rw [hmeta]; exact hle, fun hc => hnf (hfailf.mp hc)⟩
    · exact Or.inr ⟨fun hc => hnrem (hremf.mp hc), (hsavf html).mpr hsv,
        fun hc => hnf (hfailf.mp hc), by rw [hattf]; exact hatt,
        by rw [hmeta]; exact hret⟩

/-- Claim C3: the scheduler transitions a URL to Failed exactly when its
`retries` counter reaches `max_retries`: a URL whose fetch fails
`max_retries` consecutive times ends in the permanently-failed list with
its attempt count fixed at `max_retries` (it is never attempted again),
while a URL that fails exactly `max_retries - 1` times and then succeeds
ends stored-with-content with `retries = max_retries - 1`. -/
theorem retry_scheduler_terminal_transitions (cfg : SchedCfg)
    (oracle : String → ℕ → Option String) (urls : List String) (fuel : ℕ)
    (s : SchedState)
    (h : schedRun cfg oracle fuel (initState urls) = some s)
    (u : String) (hu : u ∈ urls) (hM : 1 ≤ cfg.max_retries) :
    ((∀ n, n < cfg.max_retries → oracle u n = none) →
        u ∈ s.failed ∧ getAttempts s u = cfg.max_retries
          ∧ (getMeta s u).retries = cfg.max_retries)
      ∧ (∀ html, (∀ n, n < cfg.max_retries - 1 → oracle u n = none) →
          oracle u (cfg.max_retries - 1) = some html →
          (u, html) ∈ s.saved ∧ u ∉ s.failed
            ∧ (getMeta s u).retries = cfg.max_retries - 1
            ∧ getAttempts s u = cfg.max_retries) := by
  have hnd : (initState urls).remaining.Nodup := by
    simp only [initState]
    exact urls.nodup_dedup
  have hmem : u ∈ (initState urls).remaining := by
    simp only [initState]
    exact List.mem_dedup.mpr hu
  have hmeta0 : getMeta (initState urls) u = ⟨0, none⟩ := by
    show assocGet (urls.map (fun u => (u, (⟨0, none⟩ : UrlMeta)))) u ⟨0, none⟩
      = (⟨0, none⟩ : UrlMeta)
    exact assocGet_map_const urls u (⟨0, none⟩ : UrlMeta)
  constructor
  · intro horacle
    obtain ⟨hI, hempty⟩ := schedRun_inv (P := FailInv cfg.max_retries u)
      (processUrl_failInv horacle) fuel _ s hnd
      (Or.inl ⟨hmem, by rw [hmeta0]; rfl, by rw [hmeta0]; exact hM,
        by simp [initState]⟩) h
    rcases hI with ⟨hrem, _⟩ | ⟨_, hf, hatt, hret⟩
    · rw [hempty] at hrem
      cases hrem
    · exact ⟨hf, hatt, hret⟩
  · intro html horacle hsucc
    obtain ⟨hI, hempty⟩ := schedRun_inv (P := SucInv cfg.max_retries u html)
      (processUrl_sucInv hM horacle hsucc) fuel _ s hnd
      (Or.inl ⟨hmem, by rw [hmeta0]; rfl,
        by rw [hmeta0]; exact Nat.zero_le _, by simp [initState]⟩) h
    rcases hI with ⟨hrem, _⟩ | ⟨_, hsv, hnf, hatt, hret⟩
    · rw [hempty] at hrem
      cases hrem
    · exact ⟨hsv, hnf, hret, hatt⟩

/-- Witness for C3 at concrete runs with `max_retries = 2`: URL `"b"` whose
oracle always fails ends failed with exactly 2 attempts still recorded at
the end of the run; URL `"a"` whose oracle fails once then succeeds ends
stored with `retries = 1 = max_retries - 1`. -/
theorem retry_scheduler_terminal_transitions_witness :
    ("b" ∈ (⟨[], [("b", ⟨2, some 5⟩), ("b", ⟨1, some 0⟩), ("b", ⟨0, none⟩)],
          ["b"], [], [("b", 2), ("b", 1)], 6⟩ : SchedState).failed
      ∧ getAttempts ⟨[], [("b", ⟨2, some 5⟩), ("b", ⟨1, some 0⟩), ("b", ⟨0, none⟩)],
          ["b"], [], [("b", 2), ("b", 1)], 6⟩ "b" = 2
      ∧ (getMeta ⟨[], [("b", ⟨2, some 5⟩), ("b", ⟨1, some 0⟩), ("b", ⟨0, none⟩)],
          ["b"], [], [("b", 2), ("b", 1)], 6⟩ "b").retries = 2)
    ∧ (("a", "ok") ∈ (⟨[], [("a", ⟨1, some 0⟩), ("a", ⟨0, none⟩)], [],
          [("a", "ok")], [("a", 2), ("a", 1)], 6⟩ : SchedState).saved
      ∧ "a" ∉ (⟨[], [("a", ⟨1, some 0⟩), ("a", ⟨0, none⟩)], [],
          [("a", "ok")], [("a", 2), ("a", 1)], 6⟩ : SchedState).failed
      ∧ (getMeta ⟨[], [("a", ⟨1, some 0⟩), ("a", ⟨0, none⟩)], [],
          [("a", "ok")], [("a", 2), ("a", 1)], 6⟩ "a").retries = 2 - 1
      ∧ getAttempts ⟨[], [("a", ⟨1, some 0⟩), ("a", ⟨0, none⟩)], [],
          [("a", "ok")], [("a", 2), ("a", 1)], 6⟩ "a" = 2) :=
  ⟨(retry_scheduler_terminal_transitions ⟨2, 3, 15⟩ (fun _ _ => none) ["b"] 40 _
      (by decide) "b" (by decide) (by decide)).1 (fun _ _ => rfl),
   (retry_scheduler_terminal_transitions ⟨2, 3, 15⟩
      (fun _ n => if n = 1 then some "ok" else none) ["a"] 40 _
      (by decide) "a" (by decide) (by decide)).2 "ok"
      (fun n hn => by
        have hn0 : n = 0 := Nat.lt_one_iff.mp hn
        subst hn0
        rfl)
      rfl⟩

/-! ### Claim C4: success condition of a fetch task -/

/-- Claim C4 (counterexample): the claim "a FetchTask transitions to
Succeeded exactly when the fetch attempt returns a non-empty result; an
attempt yielding an empty result does not produce a Succeeded task" is
false on the code: `scrape.py` line 332 tests `raw_html is not None`, so
a fetch attempt returning the *empty string* is persisted as a success.
Concretely, a run over `["u"]` whose only fetch attempt returns `""` ends
with `("u", "")` stored and nothing failed. -/
theorem succeeded_on_empty_result_counterexample :
    (schedRun ⟨3, 3, 15⟩ (fun _ _ => some "") 1 (initState ["u"])).elim []
        SchedState.saved = [("u", "")]
      ∧ (schedRun ⟨3, 3, 15⟩ (fun _ _ => some "") 1 (initState ["u"])).elim []
        SchedState.failed = [] := by
  decide

/-- Claim C4 (amended): at an eligible tick, a URL transitions to Succeeded
(its content is persisted and it leaves the pending set) exactly when the
fetch attempt returns a *present* result (`raw_html is not None`) — the
empty string included. -/
theorem fetch_task_success_iff (cfg : SchedCfg)
    (oracle : String → ℕ → Option String) (s : SchedState) (u : String)
    (he : eligibleB (getMeta s u) s.clock = true)
    (hns : u ∉ savedUrls s) :
    u ∈ savedUrls (processUrl cfg oracle s u)
      ↔ (oracle u (getAttempts s u)).isSome := by
  cases ho : oracle u (getAttempts s u) with
  | some html =>
    rw [processUrl_success he ho]
    simp [savedUrls]
  | none =>
    simp only [Option.isSome_none, Bool.false_eq_true, iff_false]
    by_cases hm : cfg.max_retries ≤ (getMeta s u).retries + 1
    · rw [processUrl_fail_exhausted he ho hm]
      exact hns
    · rw [processUrl_fail_pending he ho hm]
      exact hns

/-- Witness for the amended C4 at a concrete input: the first attempt on
`"u"` returns the empty string and the URL is persisted. -/
theorem fetch_task_success_iff_witness :
    ("u" ∈ savedUrls
        (processUrl ⟨3, 3, 15⟩ (fun _ _ => some "") (initState ["u"]) "u")
      ↔ (some "" : Option String).isSome) :=
  fetch_task_success_iff ⟨3, 3, 15⟩ (fun _ _ => some "") (initState ["u"]) "u"
    (by decide) (by decide)

/-! ### Claim C2: the backoff delay and the configured initial delay -/

/-- Claim C2 (code-bug evaluation): `fetch_and_save_html_from_urls`
documents its `initial_retry_delay` parameter as "Initial delay between
retries in seconds", but line 327 computes the backoff as
`calculate_retry_delay(metadata["retries"])` with that argument omitted,
so the hard-coded default `5` governs the run (line 330 passes the
constant `0` to `fetch_html`, so the configured value reaches nothing).
Concretely, configure `initial_retry_delay = 3` with an always-failing
fetch: the claim's formula `3 * 2 ^ (1 - 1) = 3` would allow the first
retry of a URL first attempted at clock 0 once the clock reaches 3, yet
after 4 ticks (clock 4) the embedded scheduler still records a single
attempt; the second attempt happens only at clock `5 = 5 * 2 ^ (1 - 1)`
(after 6 ticks, its `last_attempt_timestamp` is 5). -/
theorem scheduler_backoff_ignores_configured_delay :
    calculate_retry_delay 1 3 = 3
      ∧ getAttempts (tickIter ⟨3, 3, 15⟩ (fun _ _ => none) 4 (initState ["u"])) "u" = 1
      ∧ (tickIter ⟨3, 3, 15⟩ (fun _ _ => none) 4 (initState ["u"])).clock = 4
      ∧ getAttempts (tickIter ⟨3, 3, 15⟩ (fun _ _ => none) 6 (initState ["u"])) "u" = 2
      ∧ getMeta (tickIter ⟨3, 3, 15⟩ (fun _ _ => none) 6 (initState ["u"])) "u"
          = ⟨2, some 5⟩
      ∧ calculate_retry_delay 1 5 = 5 := by
  decide

/-! ## ContentStore: `save_html_to_disk` / `load_html_from_disk`
(`scrape.py` lines 245-297)

`generate_url_hash` (`scrape.py` lines 37-45) is
`hashlib.sha256(url.encode("utf-8")).hexdigest()`; the stdlib SHA-256 is
implemented here concretely over byte lists (`ℕ` values `< 256`, words
`< 2^32` kept by reduction mod `2^32`).  Filenames are character lists;
file contents are modelled by `FileEntry` (`json.dump`/`json.load` of the
two-field metadata object is lossless on Python strings and is modelled
as the `jsonMeta` constructor). -/

def w32 (x : ℕ) : ℕ := x % 4294967296

def rotr32 (n x : ℕ) : ℕ := w32 ((x >>> n) ||| (x <<< (32 - n)))

def bsig0 (x : ℕ) : ℕ := rotr32 2 x ^^^ rotr32 13 x ^^^ rotr32 22 x
def bsig1 (x : ℕ) : ℕ := rotr32 6 x ^^^ rotr32 11 x ^^^ rotr32 25 x
def ssig0 (x : ℕ) : ℕ := rotr32 7 x ^^^ rotr32 18 x ^^^ (x >>> 3)
def ssig1 (x : ℕ) : ℕ := rotr32 17 x ^^^ rotr32 19 x ^^^ (x >>> 10)

def sha256K : List ℕ :=
  [1116352408, 1899447441, 3049323471, 3921009573, 961987163, 1508970993,
   2453635748, 2870763221, 3624381080, 310598401, 607225278, 1426881987,
   1925078388, 2162078206, 2614888103, 3248222580, 3835390401, 4022224774,
   264347078, 604807628, 770255983, 1249150122, 1555081692, 1996064986,
   2554220882, 2821834349, 2952996808, 3210313671, 3336571891, 3584528711,
   113926993, 338241895, 666307205, 773529912, 1294757372, 1396182291,
   1695183700, 1986661051, 2177026350, 2456956037, 2730485921, 2820302411,
   3259730800, 3345764771, 3516065817, 3600352804, 4094571909, 275423344,
   430227734, 506948616, 659060556, 883997877, 958139571, 1322822218,
   1537002063, 1747873779, 1955562222, 2024104815, 2227730452, 2361852424,
   2428436474, 2756734187, 3204031479, 3329325298]

def sha256H0 : List ℕ :=
  [1779033703, 3144134277, 1013904242, 2773480762, 1359893119, 2600822924,
   528734635, 1541459225]

/-- `width`-byte big-endian encoding of a number. -/
def beBytes : ℕ → ℕ → List ℕ
  | 0, _ => []
  | k + 1, x => beBytes k (x / 256) ++ [x % 256]

/-- Group bytes into big-endian 32-bit words. -/
def beWords : List ℕ → List ℕ
  | b0 :: b1 :: b2 :: b3 :: rest =>
    (((b0 * 256 + b1) * 256 + b2) * 256 + b3) :: beWords rest
  | _ => []

/-- SHA-256 padding: a `0x80` byte, zeros to 56 mod 64, then the bit
length as a 64-bit big-endian number. -/
def sha256pad (msg : List ℕ) : List ℕ :=
  msg ++ [128] ++ List.replicate ((119 - msg.length % 64) % 64) 0
    ++ beBytes 8 (8 * msg.length)

def chunks64 : List ℕ → List (List ℕ)
  | [] => []
  | a :: l => (a :: l).take 64 :: chunks64 ((a :: l).drop 64)
termination_by l => l.length
decreasing_by
  simp only [List.drop_succ_cons, List.length_drop, List.length_cons]
  omega

/-- Extend the 16 message-schedule words to 64. -/
def extendW (w : List ℕ) : ℕ → List ℕ
  | 0 => w
  | n + 1 =>
    extendW (w ++ [w32 (ssig1 (w.getD (w.length - 2) 0) + w.getD (w.length - 7) 0
      + ssig0 (w.getD (w.length - 15) 0) + w.getD (w.length - 16) 0)]) n

/-- One SHA-256 compression, folding the 64 rounds over the state
`[a, b, c, d, e, f, g, h]` and adding the result into the chaining
values. -/
def sha256compress (W H : List ℕ) : List ℕ :=
  let st := (List.range 64).foldl (fun st i =>
    match st with
    | [a, b, c, d, e, f, g, h] =>
      let ch := (e &&& f) ^^^ ((e ^^^ 4294967295) &&& g)
      let t1 := w32 (h + bsig1 e + ch + sha256K.getD i 0 + W.getD i 0)
      let maj := (a &&& b) ^^^ (a &&& c) ^^^ (b &&& c)
      let t2 := w32 (bsig0 a + maj)
      [w32 (t1 + t2), a, b, c, w32 (d + t1), e, f, g]
    | st => st) H
  match H, st with
  | [h0, h1, h2, h3, h4, h5, h6, h7], [a, b, c, d, e, f, g, h] =>
    [w32 (h0 + a), w32 (h1 + b), w32 (h2 + c), w32 (h3 + d),
     w32 (h4 + e), w32 (h5 + f), w32 (h6 + g), w32 (h7 + h)]
  | _, _ => st

/-- SHA-256 of a byte list, as the 32-byte digest. -/
def sha256 (msg : List ℕ) : List ℕ :=
  ((chunks64 (sha256pad msg)).foldl
      (fun H block => sha256compress (extendW (beWords block) 48) H)
      sha256H0).map (beBytes 4) |>.flatten

def hexDigits : List Char := "0123456789abcdef".toList

def hexChar (n : ℕ) : Char := hexDigits.getD n '0'

/-- Lower-case hex encoding of a byte list (Python's `hexdigest`). -/
def toHexChars (bytes : List ℕ) : List Char :=
  (bytes.map (fun b => [hexChar (b / 16), hexChar (b % 16)])).flatten

/-- `generate_url_hash` from `scrape.py` lines 37-45 (named `generate_hash`
in `utils.py`): the hex SHA-256 digest of the URL's UTF-8 bytes, as the
character list of the filename stem. -/
def generate_url_hash (url : String) : List Char :=
  toHexChars (sha256 (url.toUTF8.toList.map (fun b => b.toNat)))

/-- The contents of a stored file: either a raw HTML text file or the
metadata object `{"url": ..., "file_name": ...}` (whose `json` round-trip
is lossless and therefore modelled structurally). -/
inductive FileEntry where
  | htmlFile (content : String)
  | jsonMeta (url : String) (file_name : List Char)
deriving Repr, DecidableEq

/-- A directory: filenames (character lists) mapped to file contents,
unique names maintained by `writeFile`. -/
abbrev Dir := List (List Char × FileEntry)

def eraseFile (name : List Char) : Dir → Dir
  | [] => []
  | e :: rest =>
    if e.1 = name then eraseFile name rest else e :: eraseFile name rest

/-- `open(path, 'w')`: create or truncate-and-overwrite. -/
def writeFile (name : List Char) (entry : FileEntry) (d : Dir) : Dir :=
  eraseFile name d ++ [(name, entry)]

def findFile (d : Dir) (name : List Char) : Option FileEntry :=
  match d with
  | [] => none
  | e :: rest => if e.1 = name then some e.2 else findFile rest name

def extHtml : List Char := ".html".toList
def extJson : List Char := ".json".toList

/-- `save_html_to_disk` from `scrape.py` lines 245-267: write the raw HTML
under `<hash>.html`, then the metadata `{"url": url, "file_name": file_name}`
under `<hash>.json`. -/
def save_html_to_disk (url : String) (raw_html : String) (output_dir : Dir) : Dir :=
  writeFile (generate_url_hash url ++ extJson)
    (.jsonMeta url (generate_url_hash url ++ extHtml))
    (writeFile (generate_url_hash url ++ extHtml) (.htmlFile raw_html) output_dir)

/-- Boolean "ends with" (Python's `str.endswith`). -/
def endsWithB (pat l : List Char) : Bool := isPrefixOfB pat.reverse l.reverse

/-- Python's `str.replace` (all non-overlapping occurrences, left to
right), written structurally: the skip counter consumes the remainder of
a matched pattern occurrence. -/
def replaceAllGo (pat repl : List Char) : ℕ → List Char → List Char
  | _, [] => []
  | k + 1, _ :: rest => replaceAllGo pat repl k rest
  | 0, c :: rest =>
    if isPrefixOfB pat (c :: rest) then
      repl ++ replaceAllGo pat repl (pat.length - 1) rest
    else c :: replaceAllGo pat repl 0 rest

def replaceAll (pat repl l : List Char) : List Char := replaceAllGo pat repl 0 l

/-- The body of `load_html_from_disk`'s loop (`scrape.py` lines 270-297)
over the list of files found by `os.walk`: for every file ending in
`.html`, open the sibling metadata file (`file.replace('.html', '.json')`)
— a missing or malformed sibling raises, modelled as `.error` — then read
the raw HTML and emit the `{"url", "raw_html"}` record. -/
def loadEntries (dir : Dir) : List (List Char × FileEntry) →
    Except String (List (String × String))
  | [] => .ok []
  | (name, entry) :: rest =>
    if endsWithB extHtml name then
      match findFile dir (replaceAll extHtml extJson name) with
      | some (.jsonMeta url _) =>
        match entry with
        | .htmlFile raw_html =>
          (loadEntries dir rest).map (fun l => (url, raw_html) :: l)
        | .jsonMeta _ _ => .error "html file unreadable"
      | some (.htmlFile _) => .error "metadata file malformed"
      | none => .error "metadata file missing"
    else loadEntries dir rest

/-- `load_html_from_disk` from `scrape.py` lines 270-297. -/
def load_html_from_disk (input_dir : Dir) : Except String (List (String × String)) :=
  loadEntries input_dir input_dir

/-! ### Claim C7: store roundtrip -/

theorem hexChar_ne_dot (n : ℕ) : hexChar n ≠ '.' := by
  unfold hexChar
  rcases Nat.lt_or_ge n 16 with h | h
  · interval_cases n <;> decide
  · rw [List.getD_eq_default]
    · decide
    · show hexDigits.length ≤ n
      have hlen : hexDigits.length = 16 := rfl
      rw [hlen]
      exact h

theorem generate_url_hash_ne_dot (url : String) :
    ∀ c ∈ generate_url_hash url, c ≠ '.' := by
  intro c hc
  unfold generate_url_hash toHexChars at hc
  rw [List.mem_flatten] at hc
  obtain ⟨l, hl, hcl⟩ := hc
  rw [List.mem_map] at hl
  obtain ⟨b, _, rfl⟩ := hl
  simp only [List.mem_cons, List.not_mem_nil, or_false] at hcl
  rcases hcl with rfl | rfl <;> exact hexChar_ne_dot _

theorem isPrefixOfB_append_self (p t : List Char) :
    isPrefixOfB p (p ++ t) = true := by
  induction p with
  | nil => rfl
  | cons a as ih => simpa [isPrefixOfB] using ih

theorem endsWithB_append_self (l pat : List Char) :
    endsWithB pat (l ++ pat) = true := by
  unfold endsWithB
  rw [List.reverse_append]
  exact isPrefixOfB_append_self _ _

theorem endsWithB_html_json (h : List Char) :
    endsWithB extHtml (h ++ extJson) = false := by
  unfold endsWithB
  rw [List.reverse_append]
  rfl

theorem isPrefixOfB_extHtml_cons {c : Char} (l : List Char) (hc : c ≠ '.') :
    isPrefixOfB extHtml (c :: l) = false := by
  show (('.' == c) && isPrefixOfB ['h', 't', 'm', 'l'] l) = false
  rw [show ('.' == c) = false from beq_eq_false_iff_ne.mpr (Ne.symm hc),
    Bool.false_and]

theorem replaceAll_hash_name :
    ∀ (h : List Char), (∀ c ∈ h, c ≠ '.') →
      replaceAll extHtml extJson (h ++ extHtml) = h ++ extJson := by
  intro h
  induction h with
  | nil =>
    intro _
    decide
  | cons c h ih =>
    intro hdot
    have hc : c ≠ '.' := hdot c (List.mem_cons_self c h)
    have hdot' : ∀ x ∈ h, x ≠ '.' := fun x hx => hdot x (List.mem_cons_of_mem c hx)
    show replaceAllGo extHtml extJson 0 (c :: (h ++ extHtml)) = c :: (h ++ extJson)
    simp only [replaceAllGo, isPrefixOfB_extHtml_cons _ hc, Bool.false_eq_true,
      if_false]
    exact congrArg (c :: ·) (ih hdot')

/-- Claim C7: `save_html_to_disk` writes `<hash>.html` (the raw content)
and `<hash>.json` (the metadata pairing the url with that filename), with
`<hash>` the hex SHA-256 digest of the URL's UTF-8 bytes; loading the
same directory with `load_html_from_disk` returns exactly the written
`(url, content)` pair — content byte-for-byte, url string-for-string, for
any URL (unicode included, since the digest is taken over UTF-8 bytes)
and any content. -/
theorem content_store_roundtrip (url content : String) :
    save_html_to_disk url content [] =
      [(generate_url_hash url ++ extHtml, .htmlFile content),
       (generate_url_hash url ++ extJson,
         .jsonMeta url (generate_url_hash url ++ extHtml))]
      ∧ load_html_from_disk (save_html_to_disk url content []) =
        .ok [(url, content)] := by
  have hne : ¬ (generate_url_hash url ++ extHtml = generate_url_hash url ++ extJson) := by
    intro heq
    have h2 : extHtml = extJson := List.append_cancel_left heq
    exact absurd h2 (by decide)
  have hsave : save_html_to_disk url content [] =
      [(generate_url_hash url ++ extHtml, .htmlFile content),
       (generate_url_hash url ++ extJson,
         .jsonMeta url (generate_url_hash url ++ extHtml))] := by
    unfold save_html_to_disk writeFile
    simp only [eraseFile, List.nil_append]
    rw [if_neg hne]
    rfl
  refine ⟨hsave, ?_⟩
  unfold load_html_from_disk
  rw [hsave]
  simp only [loadEntries, endsWithB_append_self,
    replaceAll_hash_name _ (generate_url_hash_ne_dot url), findFile, hne,
    if_true, if_false, ite_false, ite_true, endsWithB_html_json,
    Bool.false_eq_true, Except.map]

/-! ## Search client: `search_google`
(`src/research_gpt/search.py` lines 22-66 and the identical
`src/search.py` lines 29-73; configuration from `CONFIG_SEARCH` in
`config.py` resp. the module-level `CONFIG`). -/

/-- A parsed result record `{title, link, snippet, rank}`. -/
structure SearchResult where
  title : String
  link : String
  snippet : String
  rank : ℕ
deriving Repr, DecidableEq

/-- The configuration dictionary: the two optional secrets (absent when
the environment variable is unset) and the retry policy. -/
structure SearchCfg where
  api_key : Option String
  cx : Option String
  max_retries : ℕ
  retry_delay : ℕ
deriving Repr, DecidableEq

inductive ConfigError where
  | missingApiKey
  | missingCx
deriving Repr, DecidableEq

/-- The `while retries < max_retries` loop of `search_google`: the first
argument of the pair under construction is the attempt index (= number of
`requests.get` calls made so far), the second the remaining allowed
attempts.  The oracle yields `.error` when the iteration raises
(request failure, `raise_for_status`, JSON errors) and `.ok r` when it
completes, `r` being the parsed result list (`[]` when the response has
no `"items"`).  A completed iteration breaks; exhaustion leaves
`results = []`. -/
def searchLoop (oracle : ℕ → Except String (List SearchResult)) :
    ℕ → ℕ → List SearchResult × ℕ
  | i, 0 => ([], i)
  | i, rem + 1 =>
    match oracle i with
    | .ok r => (r, i + 1)
    | .error _ => searchLoop oracle (i + 1) rem

/-- `search_google`: raise a configuration error if either secret is
missing — before any network call (the returned counter is the number of
`requests.get` calls) — otherwise run the bounded retry loop.  Request
failures never escape: with both secrets present the first component is
always `.ok`. -/
def search_google (cfg : SearchCfg)
    (oracle : ℕ → Except String (List SearchResult)) :
    Except ConfigError (List SearchResult) × ℕ :=
  if cfg.api_key = none then (.error .missingApiKey, 0)
  else if cfg.cx = none then (.error .missingCx, 0)
  else
    ((.ok (searchLoop oracle 0 cfg.max_retries).1),
      (searchLoop oracle 0 cfg.max_retries).2)

theorem searchLoop_all_raise (err : ℕ → String) :
    ∀ (rem i : ℕ), searchLoop (fun n => .error (err n)) i rem = ([], i + rem) := by
  intro rem
  induction rem with
  | zero => intro i; rfl
  | succ k ih =>
    intro i
    show searchLoop (fun n => .error (err n)) (i + 1) k = ([], i + (k + 1))
    rw [ih (i + 1)]
    congr 1
    omega

/-- Claim C8: `search_google` raises a configuration error before issuing
any HTTP request when the API key or the search-engine id is missing
(the network-call counter stays at 0); with both secrets present it never
raises on request failure (the result is always `.ok`), and an oracle
that raises on every attempt yields the empty list after exactly
`max_retries` calls. -/
theorem search_google_config_and_retries (cfg : SearchCfg)
    (oracle : ℕ → Except String (List SearchResult)) (err : ℕ → String) :
    (cfg.api_key = none →
        search_google cfg oracle = (.error .missingApiKey, 0))
      ∧ (∀ k, cfg.api_key = some k → cfg.cx = none →
          search_google cfg oracle = (.error .missingCx, 0))
      ∧ (∀ k c, cfg.api_key = some k → cfg.cx = some c →
          ∃ r n, search_google cfg oracle = (.ok r, n))
      ∧ (∀ k c, cfg.api_key = some k → cfg.cx = some c →
          search_google cfg (fun n => .error (err n))
            = (.ok [], cfg.max_retries)) := by
  refine ⟨?_, ?_, ?_, ?_⟩
  · intro hk
    unfold search_google
    rw [if_pos hk]
  · intro k hk hc
    unfold search_google
    rw [if_neg (by rw [hk]; exact Option.noConfusion), if_pos hc]
  · intro k c hk hc
    unfold search_google
    rw [if_neg (by rw [hk]; exact Option.noConfusion),
      if_neg (by rw [hc]; exact Option.noConfusion)]
    exact ⟨_, _, rfl⟩
  · intro k c hk hc
    unfold search_google
    rw [if_neg (by rw [hk]; exact Option.noConfusion),
      if_neg (by rw [hc]; exact Option.noConfusion),
      searchLoop_all_raise err cfg.max_retries 0]
    simp

/-- Witness for C8 at concrete configurations: missing key, missing cx,
and both present with every request failing. -/
theorem search_google_config_and_retries_witness :
    search_google ⟨none, some "cx0", 3, 60⟩ (fun _ => .error "http 500")
        = (.error .missingApiKey, 0)
      ∧ search_google ⟨some "key0", none, 3, 60⟩ (fun _ => .error "http 500")
        = (.error .missingCx, 0)
      ∧ search_google ⟨some "key0", some "cx0", 3, 60⟩ (fun _ => .error "http 500")
        = (.ok [], 3) :=
  ⟨(search_google_config_and_retries ⟨none, some "cx0", 3, 60⟩
      (fun _ => .error "http 500") (fun _ => "http 500")).1 rfl,
   (search_google_config_and_retries ⟨some "key0", none, 3, 60⟩
      (fun _ => .error "http 500") (fun _ => "http 500")).2.1 "key0" rfl rfl,
   (search_google_config_and_retries ⟨some "key0", some "cx0", 3, 60⟩
      (fun _ => .error "http 500") (fun _ => "http 500")).2.2.2 "key0" "cx0"
      rfl rfl⟩

/-! ## `scrape` / `process_html` (`scrape.py` lines 181-242) -/

inductive PyError where
  | typeError
  | valueError
deriving Repr, DecidableEq

/-- `process_html` (`scrape.py` lines 181-207): `None` in, `None` out;
otherwise the BeautifulSoup element removal and html2text conversion —
external libraries, modelled by the oracle `md : String → String` —
produce a single markdown string. -/
def process_html (md : String → String) (html : Option String) : Option String :=
  match html with
  | none => none
  | some h => some (md h)

/-- Python tuple unpacking `text, href_links = v` of a single value that
is `None` or a string: `None` is not iterable, raising `TypeError`; a
string iterates into its characters, so the two-variable unpacking
succeeds exactly when it has two characters, raising `ValueError`
otherwise. -/
def unpack2 (v : Option String) : Except PyError (Char × Char) :=
  match v with
  | none => .error .typeError
  | some s =>
    match s.toList with
    | [a, b] => .ok (a, b)
    | _ => .error .valueError

/-- `scrape` (`scrape.py` lines 229-242): fetch the page, then execute
`text, href_links = process_html(raw_html, remove_elements=...)` —
unpacking the single string `process_html` returns. -/
def scrape (requests_func selenium_func : ℕ → Except String (Option String))
    (max_retries : ℕ) (md : String → String) : Except PyError (Char × Char) :=
  unpack2 (process_html md (fetch_html requests_func selenium_func max_retries).1)

/-- Claim C10: `scrape` never returns a genuine (text, links) pair: when
the fetch fails it raises `TypeError` (unpacking `None`); when the fetch
succeeds it raises `ValueError` unless the produced markdown text has
length exactly 2, in which case the "pair" it returns is the two
characters of that string. -/
theorem scrape_unpacks_single_value
    (requests_func selenium_func : ℕ → Except String (Option String))
    (max_retries : ℕ) (md : String → String) :
    ((fetch_html requests_func selenium_func max_retries).1 = none →
        scrape requests_func selenium_func max_retries md = .error .typeError)
      ∧ (∀ h, (fetch_html requests_func selenium_func max_retries).1 = some h →
          (md h).toList.length ≠ 2 →
          scrape requests_func selenium_func max_retries md = .error .valueError)
      ∧ (∀ h a b, (fetch_html requests_func selenium_func max_retries).1 = some h →
          (md h).toList = [a, b] →
          scrape requests_func selenium_func max_retries md = .ok (a, b)) := by
  refine ⟨?_, ?_, ?_⟩
  · intro hf
    unfold scrape
    rw [hf]
    rfl
  · intro h hf hlen
    unfold scrape
    rw [hf]
    show unpack2 (some (md h)) = .error .valueError
    have hgen : ∀ (l : List Char), l.length ≠ 2 →
        (match l with
          | [x, y] => Except.ok (x, y)
          | _ => (.error .valueError : Except PyError (Char × Char)))
          = .error .valueError := by
      intro l hl
      match l with
      | [] => rfl
      | [x] => rfl
      | [x, y] => exact absurd rfl hl
      | x :: y :: z :: t => rfl
    exact hgen ((md h).toList) hlen
  · intro h a b hf hml
    unfold scrape
    rw [hf]
    show unpack2 (some (md h)) = .ok (a, b)
    calc unpack2 (some (md h))
        = (match (md h).toList with
            | [x, y] => Except.ok (x, y)
            | _ => (.error .valueError : Except PyError (Char × Char))) := rfl
      _ = .ok (a, b) := by rw [hml]

/-- Witness for C10 at concrete inputs: a failed fetch raises `TypeError`;
a successful fetch with 3-character markdown raises `ValueError`; with
2-character markdown `scrape` returns the two characters. -/
theorem scrape_unpacks_single_value_witness :
    scrape (fun _ => .error "timeout") (fun _ => .error "timeout") 0
        (fun _ => "md") = .error .typeError
      ∧ scrape (fun _ => .ok (some "<p>hi</p>")) (fun _ => .error "x") 0
        (fun _ => "abc") = .error .valueError
      ∧ scrape (fun _ => .ok (some "<p>hi</p>")) (fun _ => .error "x") 0
        (fun _ => "ab") = .ok ('a', 'b') :=
  ⟨(scrape_unpacks_single_value (fun _ => .error "timeout")
      (fun _ => .error "timeout") 0 (fun _ => "md")).1 (by decide),
   (scrape_unpacks_single_value (fun _ => .ok (some "<p>hi</p>"))
      (fun _ => .error "x") 0 (fun _ => "abc")).2.1 "<p>hi</p>" (by decide)
      (by decide),
   (scrape_unpacks_single_value (fun _ => .ok (some "<p>hi</p>"))
      (fun _ => .error "x") 0 (fun _ => "ab")).2.2 "<p>hi</p>" 'a' 'b'
      (by decide) (by decide)⟩
